import Mathlib

/-!
Verification of the Quantum Portfolio Optimizer repository.

The repository splits into a Next.js front end (under `frontend/` and
`reactfrontend/`, present in the sources) and a FastAPI optimization
backend (`backend/app`, described by the Readme and the specification but
not present among the sources).  The front-end API routes
(`frontend/src/app/api/optimize/route.ts`,
`frontend/src/app/api/optimize-existing/route.ts`, and the legacy
`reactfrontend/src/api/optimize.js`) are embedded here directly from their
code.  The backend engine components (Estimator, ClassicalOptimizer,
QuantumInspiredOptimizer, MetricsCalculator, Rebalancer) are modelled from
the specification, as marked on each definition.

Numbers are modelled by `ℚ`; JavaScript `undefined` by `Option`.
-/

namespace QPO

/-- Dot product of two rational vectors, truncating at the shorter length. -/
def dot (a b : List ℚ) : ℚ := (List.zipWith (· * ·) a b).sum

/-- Quadratic form `wᵀ S w` for a matrix given as a list of rows. -/
def quadForm (w : List ℚ) (S : List (List ℚ)) : ℚ :=
  (List.zipWith (fun wi row => wi * dot row w) w S).sum

/-- Sum of squared entries (Herfindahl-style concentration measure). -/
def sumSq (w : List ℚ) : ℚ := (w.map (fun x => x * x)).sum

/-- Portfolio metrics as produced by the backend MetricsCalculator
(spec §4.4): expected return, risk (standard deviation) and Sharpe ratio. -/
structure PortfolioMetrics where
  expected_return : ℚ
  risk : ℚ
  sharpe : ℚ
deriving DecidableEq, Repr

/-- Modelled from the spec: the backend MetricsCalculator's
`improvement_percent` (backend/app is not among the sources).  Spec §4.4:
`improvement_percent(quantum_metrics, classical_metrics) =
(quantum.sharpe - classical.sharpe) / |classical.sharpe| * 100`, with
`classical.sharpe == 0` handled by defining the improvement as 0 rather
than dividing by zero. -/
def improvement_percent (quantum classical : PortfolioMetrics) : ℚ :=
  if classical.sharpe = 0 then 0
  else (quantum.sharpe - classical.sharpe) / |classical.sharpe| * 100

/-- A current position (spec §3 `Holding`): ticker and share count. -/
structure Holding where
  ticker : String
  shares : ℚ
deriving DecidableEq, Repr

/-- Trade action, from the `Trade` interface of
`frontend/src/app/api/optimize-existing/route.ts`. -/
inductive TradeAction
  | BUY
  | SELL
  | HOLD
deriving DecidableEq, Repr

/-- A rebalancing trade, from the `Trade` interface of
`frontend/src/app/api/optimize-existing/route.ts` (also spec §3). -/
structure Trade where
  ticker : String
  current_shares : ℚ
  target_shares : ℚ
  action : TradeAction
  amount : ℚ
deriving DecidableEq, Repr

/-- Modelled from the spec: total portfolio value of the Rebalancer
(spec §4.5), `sum(holding.shares * latest_price)` over current holdings. -/
def totalValue (holdings : List Holding) (prices : List ℚ) : ℚ :=
  (List.zipWith (fun h p => h.shares * p) holdings prices).sum

/-- Modelled from the spec: one trade of the Rebalancer (spec §4.5).
Target shares are `(target_weight * total_value) / latest_price`;
the action is BUY if `target_shares - current_shares > epsilon`, SELL if
`< -epsilon`, otherwise HOLD; `amount = |target_shares - current_shares|`. -/
def mkTrade (eps total : ℚ) (h : Holding) (w p : ℚ) : Trade :=
  let target := w * total / p
  let diff := target - h.shares
  { ticker := h.ticker
    current_shares := h.shares
    target_shares := target
    action := if eps < diff then .BUY else if diff < -eps then .SELL else .HOLD
    amount := |diff| }

/-- Modelled from the spec: the backend Rebalancer (spec §4.5,
backend/app is not among the sources).  Converts current holdings, target
weights and latest prices into one `Trade` per holding. -/
def rebalance (holdings : List Holding) (targetWeights prices : List ℚ)
    (eps : ℚ) : List Trade :=
  let total := totalValue holdings prices
  List.zipWith (fun (hw : Holding × ℚ) p => mkTrade eps total hw.1 hw.2 p)
    (List.zipWith Prod.mk holdings targetWeights) prices

/-- The weights implied by the current holdings at the latest prices:
`w_i = shares_i * price_i / total_value` (spec §8, round-trip property). -/
def impliedWeights (holdings : List Holding) (prices : List ℚ) : List ℚ :=
  let total := totalValue holdings prices
  List.zipWith (fun h p => h.shares * p / total) holdings prices

/-- Every element of a `zipWith` is the image of a pair of elements. -/
theorem mem_zipWith {α β γ : Type} {f : α → β → γ} {c : γ} :
    ∀ {l₁ : List α} {l₂ : List β}, c ∈ List.zipWith f l₁ l₂ →
      ∃ a b, a ∈ l₁ ∧ b ∈ l₂ ∧ c = f a b := by
  intro l₁
  induction l₁ with
  | nil => intro l₂ h; simp at h
  | cons a l₁ ih =>
    intro l₂ h
    cases l₂ with
    | nil => simp at h
    | cons b l₂ =>
      simp only [List.zipWith_cons_cons, List.mem_cons] at h
      rcases h with h | h
      · exact ⟨a, b, List.mem_cons_self _ _, List.mem_cons_self _ _, h⟩
      · rcases ih h with ⟨a', b', ha, hb, hc⟩
        exact ⟨a', b', List.mem_cons_of_mem _ ha, List.mem_cons_of_mem _ hb, hc⟩

theorem mkTrade_current (eps total : ℚ) (h : Holding) (w p : ℚ) :
    (mkTrade eps total h w p).current_shares = h.shares := rfl

theorem mkTrade_target (eps total : ℚ) (h : Holding) (w p : ℚ) :
    (mkTrade eps total h w p).target_shares = w * total / p := rfl

theorem mkTrade_amount (eps total : ℚ) (h : Holding) (w p : ℚ) :
    (mkTrade eps total h w p).amount = |w * total / p - h.shares| := rfl

theorem mkTrade_action (eps total : ℚ) (h : Holding) (w p : ℚ) :
    (mkTrade eps total h w p).action =
      if eps < w * total / p - h.shares then .BUY
      else if w * total / p - h.shares < -eps then .SELL
      else .HOLD := rfl

/-- Classification of the BUY/SELL/HOLD conditional against its guard. -/
theorem action_classify (eps d : ℚ) (heps : 0 ≤ eps) :
    ((if eps < d then TradeAction.BUY
      else if d < -eps then TradeAction.SELL
      else TradeAction.HOLD) = TradeAction.BUY ↔ eps < d) ∧
    ((if eps < d then TradeAction.BUY
      else if d < -eps then TradeAction.SELL
      else TradeAction.HOLD) = TradeAction.SELL ↔ d < -eps) ∧
    ((if eps < d then TradeAction.BUY
      else if d < -eps then TradeAction.SELL
      else TradeAction.HOLD) = TradeAction.HOLD ↔ |d| ≤ eps) := by
  split_ifs with h1 h2
  · exact ⟨iff_of_true rfl h1, iff_of_false (by decide) (by linarith),
      iff_of_false (by decide) (fun hc => by rw [abs_le] at hc; linarith)⟩
  · exact ⟨iff_of_false (by decide) h1, iff_of_true rfl h2,
      iff_of_false (by decide) (fun hc => by rw [abs_le] at hc; linarith)⟩
  · exact ⟨iff_of_false (by decide) h1, iff_of_false (by decide) h2,
      iff_of_true rfl (abs_le.mpr ⟨by linarith, by linarith⟩)⟩

/-- Classification behaviour of a single trade built by `mkTrade`. -/
theorem mkTrade_spec (eps total : ℚ) (h : Holding) (w p : ℚ) (heps : 0 ≤ eps) :
    ((mkTrade eps total h w p).action = .BUY ↔
      eps < (mkTrade eps total h w p).target_shares -
        (mkTrade eps total h w p).current_shares) ∧
    ((mkTrade eps total h w p).action = .SELL ↔
      (mkTrade eps total h w p).target_shares -
        (mkTrade eps total h w p).current_shares < -eps) ∧
    ((mkTrade eps total h w p).action = .HOLD ↔
      |(mkTrade eps total h w p).target_shares -
        (mkTrade eps total h w p).current_shares| ≤ eps) ∧
    (mkTrade eps total h w p).amount =
      |(mkTrade eps total h w p).target_shares -
        (mkTrade eps total h w p).current_shares| ∧
    0 ≤ (mkTrade eps total h w p).amount := by
  have h4 := action_classify eps (w * total / p - h.shares) heps
  rw [mkTrade_current, mkTrade_target, mkTrade_amount, mkTrade_action]
  exact ⟨h4.1, h4.2.1, h4.2.2, rfl, abs_nonneg _⟩

/-- Linear congruential pseudo-random step, 32-bit state.  The spec (§4.3)
only requires a seedable deterministic random source. -/
def lcg (s : Nat) : Nat := (1664525 * s + 1013904223) % 4294967296

/-- Iterated pseudo-random stream: the j-th draw from state `s`. -/
def lcgIter (s : Nat) : Nat → Nat
  | 0 => lcg s
  | j + 1 => lcg (lcgIter s j)

/-- A strictly positive pseudo-random rational in [1, 1000]. -/
def randUnit (s j : Nat) : ℚ := ((lcgIter s j % 1000 + 1 : Nat) : ℚ)

/-- Normalization onto the weight simplex: divide each entry by the sum. -/
def normalize (xs : List ℚ) : List ℚ := xs.map (fun x => x / xs.sum)

/-- Modelled from the spec: one trial of the quantum-inspired search
(spec §4.3, §9): a random point on the weight simplex obtained by
normalized-random-vector projection, with the trial's stream derived from
a counter-based seed (seed XOR trial index). -/
def trialSample (seed i n : Nat) : List ℚ :=
  normalize ((List.range n).map (fun j => randUnit (seed ^^^ i) j))

/-- The equal-weight vector `1/n` each (spec §4.2 fallback, §4.3 fallback). -/
def equalWeight (n : Nat) : List ℚ := List.replicate n ((n : ℚ))⁻¹

/-- Newton iteration for a rational square-root approximation. -/
def qSqrtAux : Nat → ℚ → ℚ → ℚ
  | 0, _, g => g
  | k + 1, x, g => qSqrtAux k x ((g + x / g) / 2)

/-- Rational approximation of the square root, used for portfolio risk
`sqrt(wᵀΣw)` in the candidate score. -/
def qSqrt (x : ℚ) : ℚ := if x ≤ 0 then 0 else qSqrtAux 8 x (1 + x)

/-- Diversification-penalty coefficient (spec §9 names it a tunable
configuration parameter; this is the documented default of this model). -/
def divPenalty : ℚ := 1/10

/-- Modelled from the spec: the candidate score of the quantum-inspired
search (spec §4.3): `risk_tolerance * portfolio_return -
(1 - risk_tolerance) * portfolio_risk` minus a Herfindahl-style
concentration penalty proportional to the sum of squared weights. -/
def score (mu : List ℚ) (sigma : List (List ℚ)) (rt : ℚ) (w : List ℚ) : ℚ :=
  rt * dot w mu - (1 - rt) * qSqrt (quadForm w sigma) - divPenalty * sumSq w

/-- Fold selecting the candidate with the maximal value of `f`, starting
from the fallback `init`. -/
def pickBest (f : List ℚ → ℚ) (init : List ℚ) (cands : List (List ℚ)) : List ℚ :=
  cands.foldl (fun best c => if f best < f c then c else best) init

/-- Modelled from the spec: the QuantumInspiredOptimizer (spec §4.3,
backend/app is not among the sources).  Performs `trials` seeded random
trials on the weight simplex, scores each by `score`, and returns the
best-scoring candidate, with the equal-weight vector as fallback. -/
def quantumOptimize (mu : List ℚ) (sigma : List (List ℚ)) (rt : ℚ)
    (seed trials : Nat) : List ℚ :=
  let n := mu.length
  pickBest (score mu sigma rt) (equalWeight n)
    ((List.range trials).map (fun i => trialSample seed i n))

/-- Modelled from the spec: the ClassicalOptimizer (spec §4.2, backend/app
is not among the sources).  The SQP solver is modelled as a bounded
deterministic search over simplex candidates minimizing the portfolio
variance `wᵀΣw`, seeded at the equal-weight vector, which is also the
non-convergence fallback. -/
def classicalOptimize (sigma : List (List ℚ)) (n iters : Nat) : List ℚ :=
  pickBest (fun w => -(quadForm w sigma)) (equalWeight n)
    ((List.range iters).map (fun i => trialSample 0 i n))

/-- Membership on the weight simplex: entries sum to one and are
non-negative. -/
def onSimplex (w : List ℚ) : Prop := w.sum = 1 ∧ ∀ x ∈ w, 0 ≤ x

theorem sum_map_div (xs : List ℚ) (s : ℚ) :
    (xs.map (fun x => x / s)).sum = xs.sum / s := by
  induction xs with
  | nil => simp
  | cons x xs ih => simp [ih, add_div]

theorem normalize_onSimplex (xs : List ℚ) (hne : xs ≠ [])
    (hpos : ∀ x ∈ xs, 0 < x) : onSimplex (normalize xs) := by
  have hs : 0 < xs.sum := List.sum_pos xs hpos hne
  constructor
  · rw [normalize, sum_map_div, div_self (ne_of_gt hs)]
  · intro x hx
    rcases List.mem_map.mp hx with ⟨y, hy, hxy⟩
    subst hxy
    exact div_nonneg (le_of_lt (hpos y hy)) (le_of_lt hs)

theorem equalWeight_onSimplex (n : Nat) (hn : 0 < n) :
    onSimplex (equalWeight n) := by
  constructor
  · rw [equalWeight, List.sum_replicate, nsmul_eq_mul,
      mul_inv_cancel₀ (Nat.cast_ne_zero.mpr (Nat.pos_iff_ne_zero.mp hn))]
  · intro x hx
    rw [equalWeight] at hx
    rw [List.eq_of_mem_replicate hx]
    positivity

theorem randUnit_pos (s j : Nat) : 0 < randUnit s j := by
  rw [randUnit]
  exact_mod_cast Nat.succ_pos _

theorem trialSample_onSimplex (seed i n : Nat) (hn : 0 < n) :
    onSimplex (trialSample seed i n) := by
  apply normalize_onSimplex
  · simp [List.range_eq_nil, Nat.pos_iff_ne_zero.mp hn]
  · intro x hx
    rcases List.mem_map.mp hx with ⟨j, _, hxj⟩
    subst hxj
    exact randUnit_pos _ _

theorem pickBest_mem (f : List ℚ → ℚ) (init : List ℚ) (cands : List (List ℚ)) :
    pickBest f init cands = init ∨ pickBest f init cands ∈ cands := by
  rw [pickBest]
  induction cands generalizing init with
  | nil => exact Or.inl rfl
  | cons c cs ih =>
    simp only [List.foldl_cons]
    rcases ih (if f init < f c then c else init) with h | h
    · rw [h]
      split_ifs with hc
      · exact Or.inr (List.mem_cons_self _ _)
      · exact Or.inl rfl
    · exact Or.inr (List.mem_cons_of_mem _ h)

theorem pickBest_onSimplex (f : List ℚ → ℚ) (init : List ℚ)
    (cands : List (List ℚ)) (hinit : onSimplex init)
    (hcands : ∀ c ∈ cands, onSimplex c) : onSimplex (pickBest f init cands) := by
  rcases pickBest_mem f init cands with h | h
  · rw [h]; exact hinit
  · exact hcands _ h

theorem quantumOptimize_onSimplex (mu : List ℚ) (sigma : List (List ℚ))
    (rt : ℚ) (seed trials : Nat) (hn : 0 < mu.length) :
    onSimplex (quantumOptimize mu sigma rt seed trials) := by
  apply pickBest_onSimplex
  · exact equalWeight_onSimplex _ hn
  · intro c hc
    rcases List.mem_map.mp hc with ⟨i, _, hic⟩
    subst hic
    exact trialSample_onSimplex _ _ _ hn

theorem classicalOptimize_onSimplex (sigma : List (List ℚ)) (n iters : Nat)
    (hn : 0 < n) : onSimplex (classicalOptimize sigma n iters) := by
  apply pickBest_onSimplex
  · exact equalWeight_onSimplex _ hn
  · intro c hc
    rcases List.mem_map.mp hc with ⟨i, _, hic⟩
    subst hic
    exact trialSample_onSimplex _ _ _ hn

/-- C1: every weight vector returned by either optimizer lies on the weight
simplex: its entries sum to 1 within 1e-6 and no entry is below -1e-9 (in
this exact-rational model the sum is exactly 1 and entries are exactly
non-negative, which implies the float-tolerance statement). -/
theorem c1_optimizer_weights_on_simplex (mu : List ℚ) (sigma : List (List ℚ))
    (rt : ℚ) (seed trials iters : Nat) (hn : 0 < mu.length) :
    (|(quantumOptimize mu sigma rt seed trials).sum - 1| ≤ 1/1000000 ∧
      ∀ x ∈ quantumOptimize mu sigma rt seed trials, -(1/1000000000) ≤ x) ∧
    (|(classicalOptimize sigma mu.length iters).sum - 1| ≤ 1/1000000 ∧
      ∀ x ∈ classicalOptimize sigma mu.length iters, -(1/1000000000) ≤ x) := by
  obtain ⟨hq1, hq2⟩ := quantumOptimize_onSimplex mu sigma rt seed trials hn
  obtain ⟨hc1, hc2⟩ := classicalOptimize_onSimplex sigma mu.length iters hn
  refine ⟨⟨?_, fun x hx => ?_⟩, ⟨?_, fun x hx => ?_⟩⟩
  · rw [hq1]; norm_num
  · linarith [hq2 x hx]
  · rw [hc1]; norm_num
  · linarith [hc2 x hx]

/-- Witness for C1 at a concrete two-asset input. -/
theorem c1_optimizer_weights_on_simplex_witness :
    0 < ([1/10, 1/5] : List ℚ).length ∧
    ((|(quantumOptimize [1/10, 1/5] [[1, 0], [0, 1]] (1/2) 42 3).sum - 1| ≤ 1/1000000 ∧
      ∀ x ∈ quantumOptimize [1/10, 1/5] [[1, 0], [0, 1]] (1/2) 42 3, -(1/1000000000) ≤ x) ∧
    (|(classicalOptimize [[1, 0], [0, 1]] ([1/10, 1/5] : List ℚ).length 3).sum - 1| ≤ 1/1000000 ∧
      ∀ x ∈ classicalOptimize [[1, 0], [0, 1]] ([1/10, 1/5] : List ℚ).length 3,
        -(1/1000000000) ≤ x)) :=
  ⟨by decide,
   c1_optimizer_weights_on_simplex [1/10, 1/5] [[1, 0], [0, 1]] (1/2) 42 3 3 (by decide)⟩

/-- C5: the QuantumInspiredOptimizer is deterministic under a fixed seed:
two calls with identical mu, sigma, risk tolerance and seed (and the same
configured trial count) return identical weight vectors. -/
theorem c5_quantum_deterministic (mu₁ mu₂ : List ℚ)
    (sigma₁ sigma₂ : List (List ℚ)) (rt₁ rt₂ : ℚ) (seed₁ seed₂ trials : Nat)
    (hmu : mu₁ = mu₂) (hsigma : sigma₁ = sigma₂) (hrt : rt₁ = rt₂)
    (hseed : seed₁ = seed₂) :
    quantumOptimize mu₁ sigma₁ rt₁ seed₁ trials =
      quantumOptimize mu₂ sigma₂ rt₂ seed₂ trials := by
  rw [hmu, hsigma, hrt, hseed]

/-- Witness for C5 at a concrete input. -/
theorem c5_quantum_deterministic_witness :
    quantumOptimize [1/10, 1/5] [[1, 0], [0, 1]] (1/2) 42 5 =
      quantumOptimize [1/10, 1/5] [[1, 0], [0, 1]] (1/2) 42 5 :=
  c5_quantum_deterministic [1/10, 1/5] [1/10, 1/5] [[1, 0], [0, 1]]
    [[1, 0], [0, 1]] (1/2) (1/2) 42 42 5 rfl rfl rfl rfl

/-- When every target weight is the weight implied by the current holding,
every produced trade is a HOLD with zero amount. -/
theorem roundtrip_aux (eps total : ℚ) (heps : 0 ≤ eps) :
    ∀ (hs : List Holding) (ps : List ℚ), (∀ p ∈ ps, p ≠ 0) → total ≠ 0 →
    ∀ t ∈ List.zipWith (fun (hw : Holding × ℚ) p => mkTrade eps total hw.1 hw.2 p)
        (List.zipWith Prod.mk hs (List.zipWith (fun h p => h.shares * p / total) hs ps)) ps,
      t.action = .HOLD ∧ t.amount = 0 := by
  intro hs
  induction hs with
  | nil => intro ps _ _ t ht; simp at ht
  | cons h hs ih =>
    intro ps hps htot t ht
    cases ps with
    | nil => simp at ht
    | cons p ps =>
      have hp : p ≠ 0 := hps p (List.mem_cons_self _ _)
      simp only [List.zipWith_cons_cons, List.mem_cons] at ht
      rcases ht with ht | ht
      · subst ht
        have htarget : h.shares * p / total * total / p = h.shares := by
          field_simp
        constructor
        · rw [mkTrade_action, htarget]
          have h1 : ¬ eps < h.shares - h.shares := by simp; linarith
          have h2 : ¬ h.shares - h.shares < -eps := by simp; linarith
          rw [if_neg h1, if_neg h2]
        · rw [mkTrade_amount, htarget]
          simp
      · exact ih ps (fun q hq => hps q (List.mem_cons_of_mem _ hq)) htot t ht

/-- C2: every Trade produced by the Rebalancer has action BUY iff
`target_shares - current_shares > eps`, SELL iff `< -eps`, HOLD otherwise
(iff `|target - current| ≤ eps`), with `amount = |target - current| ≥ 0`;
and when the target weights equal the weights implied by the current
holdings exactly, every resulting trade is a HOLD with amount 0. -/
theorem c2_rebalancer_trade_classification (holdings : List Holding)
    (weights prices : List ℚ) (eps : ℚ) (heps : 0 ≤ eps) :
    (∀ t ∈ rebalance holdings weights prices eps,
      (t.action = .BUY ↔ eps < t.target_shares - t.current_shares) ∧
      (t.action = .SELL ↔ t.target_shares - t.current_shares < -eps) ∧
      (t.action = .HOLD ↔ |t.target_shares - t.current_shares| ≤ eps) ∧
      t.amount = |t.target_shares - t.current_shares| ∧ 0 ≤ t.amount) ∧
    ((∀ p ∈ prices, 0 < p) → totalValue holdings prices ≠ 0 →
      ∀ t ∈ rebalance holdings (impliedWeights holdings prices) prices eps,
        t.action = .HOLD ∧ t.amount = 0) := by
  constructor
  · intro t ht
    simp only [rebalance] at ht
    rcases mem_zipWith ht with ⟨hw, p, _, _, hc⟩
    subst hc
    exact mkTrade_spec eps (totalValue holdings prices) hw.1 hw.2 p heps
  · intro hpos htot t ht
    simp only [rebalance, impliedWeights] at ht
    exact roundtrip_aux eps (totalValue holdings prices) heps holdings prices
      (fun p hp => ne_of_gt (hpos p hp)) htot t ht

/-- Witness for C2, at the scenario of spec §8: holdings AAPL 10 and MSFT 5,
prices 150 and 300, target weights 0.6 and 0.4, epsilon 1e-6. -/
theorem c2_rebalancer_trade_classification_witness :
    (0 : ℚ) ≤ 1/1000000 ∧
    ((∀ t ∈ rebalance [⟨"AAPL", 10⟩, ⟨"MSFT", 5⟩] [3/5, 2/5] [150, 300] (1/1000000),
      (t.action = .BUY ↔ 1/1000000 < t.target_shares - t.current_shares) ∧
      (t.action = .SELL ↔ t.target_shares - t.current_shares < -(1/1000000)) ∧
      (t.action = .HOLD ↔ |t.target_shares - t.current_shares| ≤ 1/1000000) ∧
      t.amount = |t.target_shares - t.current_shares| ∧ 0 ≤ t.amount) ∧
    ((∀ p ∈ [(150 : ℚ), 300], 0 < p) →
      totalValue [⟨"AAPL", 10⟩, ⟨"MSFT", 5⟩] [150, 300] ≠ 0 →
      ∀ t ∈ rebalance [⟨"AAPL", 10⟩, ⟨"MSFT", 5⟩]
          (impliedWeights [⟨"AAPL", 10⟩, ⟨"MSFT", 5⟩] [150, 300]) [150, 300] (1/1000000),
        t.action = .HOLD ∧ t.amount = 0)) :=
  ⟨by norm_num,
   c2_rebalancer_trade_classification [⟨"AAPL", 10⟩, ⟨"MSFT", 5⟩] [3/5, 2/5]
     [150, 300] (1/1000000) (by norm_num)⟩

/-- C4: `improvement_percent` equals
`(quantum.sharpe - classical.sharpe) / |classical.sharpe| * 100` except that
it is 0 when `classical.sharpe = 0`; in particular it is 0 whenever the two
Sharpe ratios are equal. -/
theorem c4_improvement_percent_formula (q c : PortfolioMetrics) :
    (c.sharpe = 0 → improvement_percent q c = 0) ∧
    (c.sharpe ≠ 0 →
      improvement_percent q c = (q.sharpe - c.sharpe) / |c.sharpe| * 100) ∧
    (q.sharpe = c.sharpe → improvement_percent q c = 0) := by
  refine ⟨fun h0 => ?_, fun hne => ?_, fun heq => ?_⟩
  · simp [improvement_percent, h0]
  · simp [improvement_percent, hne]
  · by_cases h0 : c.sharpe = 0
    · simp [improvement_percent, h0]
    · simp [improvement_percent, h0, heq]

/-- Witness for C4: equal Sharpe ratios give improvement 0. -/
theorem c4_improvement_percent_formula_witness :
    improvement_percent ⟨1/10, 1/5, 7/10⟩ ⟨3/25, 9/50, 7/10⟩ = 0 :=
  (c4_improvement_percent_formula ⟨1/10, 1/5, 7/10⟩ ⟨3/25, 9/50, 7/10⟩).2.2 rfl

/-- Error taxonomy of the backend engine (spec §7). -/
inductive EngineError
  | insufficientData
  | degenerateInput
deriving DecidableEq, Repr

/-- A per-ticker aligned daily price matrix, stored as one price series
per ticker (spec §3 `PriceMatrix`). -/
structure PriceMatrix where
  cols : List (List ℚ)
deriving DecidableEq, Repr

/-- Number of aligned trading days of the matrix (the row count; columns
are aligned by the PriceMatrix invariant). -/
def days (pm : PriceMatrix) : Nat :=
  match pm.cols with
  | [] => 0
  | c :: _ => c.length

/-- Simple daily returns from consecutive prices (spec §4.1):
`r[t] = price[t]/price[t-1] - 1`. -/
def dailyReturns (c : List ℚ) : List ℚ :=
  List.zipWith (fun prev cur => cur / prev - 1) c c.tail

/-- Exponentially-weighted moving average with decay `lam`, more recent
observations weighted higher (spec §4.1). -/
def ewma (lam : ℚ) (rs : List ℚ) : ℚ :=
  let ws := (List.range rs.length).map (fun i => lam ^ i)
  (List.zipWith (· * ·) ws rs.reverse).sum / ws.sum

/-- EWMA decay parameter (tunable configuration; documented default). -/
def ewmaLambda : ℚ := 94/100

/-- Trading days per year used for annualization (spec §4.1). -/
def annualFactor : ℚ := 252

/-- Arithmetic mean of a return series. -/
def sampleMean (rs : List ℚ) : ℚ := rs.sum / (rs.length : ℚ)

/-- Sample covariance of two aligned return series. -/
def covPair (a b : List ℚ) : ℚ :=
  let ma := sampleMean a
  let mb := sampleMean b
  (List.zipWith (fun x y => (x - ma) * (y - mb)) a b).sum / (a.length : ℚ)

/-- Sample covariance matrix of the per-ticker return series. -/
def sampleCov (rets : List (List ℚ)) : List (List ℚ) :=
  rets.map (fun ri => rets.map (fun rj => covPair ri rj))

/-- Ledoit-Wolf shrinkage intensity (the data-driven intensity is a tunable
configuration parameter of the model; documented default). -/
def shrinkIntensity : ℚ := 1/10

/-- Average diagonal entry `trace(S)/n`, the scale of the scaled-identity
shrinkage target (spec §4.1). -/
def diagAvg (S : List (List ℚ)) : ℚ :=
  (((List.range S.length).map (fun i => (S.getD i []).getD i 0)).sum) / (S.length : ℚ)

/-- Shrinks a covariance matrix toward the scaled-identity target
(spec §4.1, Ledoit-Wolf shrinkage). -/
def shrink (S : List (List ℚ)) : List (List ℚ) :=
  let t := diagAvg S
  (List.range S.length).map (fun i =>
    (List.range S.length).map (fun j =>
      (1 - shrinkIntensity) * ((S.getD i []).getD j 0) +
        if i = j then shrinkIntensity * t else 0))

/-- Modelled from the spec: the backend Estimator (spec §4.1, backend/app
is not among the sources).  Fails with `InsufficientDataError` when fewer
than 30 aligned trading days are available or a ticker column is entirely
missing; otherwise returns annualized EWMA expected returns and the
annualized shrunk covariance matrix. -/
def estimate (pm : PriceMatrix) : Except EngineError (List ℚ × List (List ℚ)) :=
  if days pm < 30 then .error .insufficientData
  else if pm.cols.any (fun c => c.isEmpty) then .error .insufficientData
  else
    let rets := pm.cols.map dailyReturns
    .ok (rets.map (fun r => annualFactor * ewma ewmaLambda r),
      (shrink (sampleCov rets)).map (fun row => row.map (fun x => annualFactor * x)))

/-- C3: with fewer than 30 aligned trading days the Estimator fails with
the insufficient-data error (an `Except.error`, so no partial result is
produced); with 30 or more aligned trading days this check passes and an
estimate is returned. -/
theorem c3_insufficient_data_check (pm : PriceMatrix) :
    (days pm < 30 → estimate pm = .error .insufficientData) ∧
    ((∀ c ∈ pm.cols, c.length = days pm) → 30 ≤ days pm →
      ∃ est, estimate pm = .ok est) := by
  constructor
  · intro h
    rw [estimate, if_pos h]
  · intro haligned hdays
    have hnotlt : ¬ days pm < 30 := not_lt.mpr hdays
    have hany : pm.cols.any (fun c => c.isEmpty) = false := by
      rw [List.any_eq_false]
      intro c hc
      have hlen := haligned c hc
      simp only [List.isEmpty_iff]
      intro hnil
      rw [hnil] at hlen
      simp at hlen
      omega
    rw [estimate, if_neg hnotlt]
    rw [if_neg (by simp [hany])]
    exact ⟨_, rfl⟩

/-- Witness for C3: a 30-day two-ticker price matrix passes the check. -/
theorem c3_insufficient_data_check_witness :
    (∀ c ∈ (PriceMatrix.mk [List.replicate 30 (1 : ℚ), List.replicate 30 2]).cols,
      c.length = days (PriceMatrix.mk [List.replicate 30 (1 : ℚ), List.replicate 30 2])) ∧
    30 ≤ days (PriceMatrix.mk [List.replicate 30 (1 : ℚ), List.replicate 30 2]) ∧
    ∃ est, estimate (PriceMatrix.mk [List.replicate 30 (1 : ℚ), List.replicate 30 2]) = .ok est :=
  ⟨by decide, by decide,
   (c3_insufficient_data_check
       (PriceMatrix.mk [List.replicate 30 (1 : ℚ), List.replicate 30 2])).2
     (by decide) (by decide)⟩

/-- JavaScript truthiness of an optional string: `undefined` and the empty
string are falsy (`!body.start_date` in the routes). -/
def strFalsy : Option String → Bool
  | none => true
  | some s => s == ""

/-- The date-format regex `^\d{4}-\d{2}-\d{2}$` of
`frontend/src/app/api/optimize/route.ts`. -/
def validDateFormat (s : String) : Bool :=
  match s.data with
  | [y1, y2, y3, y4, h1, m1, m2, h2, d1, d2] =>
    y1.isDigit && y2.isDigit && y3.isDigit && y4.isDigit && (h1 == '-') &&
      m1.isDigit && m2.isDigit && (h2 == '-') && d1.isDigit && d2.isDigit
  | _ => false

/-- Numeric value of a decimal digit character. -/
def digitVal (c : Char) : Nat := c.toNat - 48

/-- Days from 1970-01-01 of a proleptic-Gregorian civil date (the standard
era-based algorithm; divisions act on non-negative operands). -/
def daysFromCivil (y m d : Nat) : Int :=
  let y2 : Int := (y : Int) - (if m ≤ 2 then 1 else 0)
  let era : Int := (if 0 ≤ y2 then y2 else y2 - 399) / 400
  let yoe : Int := y2 - era * 400
  let doy : Int := (153 * ((m : Int) + (if 2 < m then -3 else 9)) + 2) / 5 + (d : Int) - 1
  let doe : Int := yoe * 365 + yoe / 4 - yoe / 100 + doy
  era * 146097 + doe - 719468

/-- Model of JavaScript `new Date("YYYY-MM-DD")`: UTC-midnight epoch
milliseconds, `none` for an invalid date (JS `NaN`). -/
def parseDate (s : String) : Option Int :=
  match s.data with
  | [y1, y2, y3, y4, _, m1, m2, _, d1, d2] =>
    let y := 1000 * digitVal y1 + 100 * digitVal y2 + 10 * digitVal y3 + digitVal y4
    let m := 10 * digitVal m1 + digitVal m2
    let d := 10 * digitVal d1 + digitVal d2
    if 1 ≤ m ∧ m ≤ 12 ∧ 1 ≤ d ∧ d ≤ 31 then
      some (86400000 * daysFromCivil y m d)
    else none
  | _ => none

/-- JS `a >= b` on possibly-invalid dates: any comparison with `NaN` is
false. -/
def jsGe : Option Int → Option Int → Bool
  | some a, some b => b ≤ a
  | _, _ => false

/-- JS `a > b` on possibly-invalid dates. -/
def jsGt : Option Int → Option Int → Bool
  | some a, some b => b < a
  | _, _ => false

/-- JS `(end - start) / (1000*3600*24) < 30` on possibly-invalid dates. -/
def jsDaysLt30 : Option Int → Option Int → Bool
  | some s, some e => decide ((((e - s : Int)) : ℚ) / (1000 * 3600 * 24) < 30)
  | _, _ => false

/-- JavaScript `toUpperCase()` on a ticker string: uppercases each
character (agrees with `String.toUpper`, written structurally over the
character list). -/
def upper (s : String) : String := ⟨s.data.map Char.toUpper⟩

/-- The ticker-symbol regex `^[A-Z]{1,5}$` applied to
`ticker.toUpperCase()`. -/
def validTicker (t : String) : Bool :=
  1 ≤ (upper t).length && (upper t).length ≤ 5 &&
    (upper t).data.all (fun c => 'A' ≤ c && c ≤ 'Z')

/-- The risk-tolerance guard of the optimize route:
`body.risk_tolerance === undefined || body.risk_tolerance < 0 ||
body.risk_tolerance > 1`. -/
def riskInvalid : Option ℚ → Bool
  | none => true
  | some r => decide (r < 0) || decide (1 < r)

/-- The investment-amount guard of the optimize route:
`body.investment_amount !== undefined && (body.investment_amount <= 0 ||
body.investment_amount > 10000000)`. -/
def amountInvalid : Option ℚ → Bool
  | none => false
  | some a => decide (a ≤ 0) || decide (10000000 < a)

/-- JS `x || d` on an optional number: `undefined` and `0` take the
default. -/
def jsOrQ : Option ℚ → ℚ → ℚ
  | none, d => d
  | some a, d => if a = 0 then d else a

/-- The request body of POST /api/optimize
(`frontend/src/app/api/optimize/route.ts`); optional fields model
possibly-absent JSON fields. -/
structure PortfolioRequest where
  tickers : Option (List String)
  start_date : Option String
  end_date : Option String
  risk_tolerance : Option ℚ
  investment_amount : Option ℚ
deriving DecidableEq, Repr

/-- The `requestData` object the optimize route forwards to the backend
after validation. -/
structure ForwardedRequest where
  tickers : List String
  start_date : String
  end_date : String
  risk_tolerance : ℚ
  investment_amount : ℚ
deriving DecidableEq, Repr

/-- The validation rejections of the optimize route, one per early-return
branch; each is returned with HTTP status 400. -/
inductive ValidationError
  | tickersRequired
  | minTickers
  | maxTickers
  | datesRequired
  | dateFormat
  | dateOrder
  | dateFuture
  | shortPeriod
  | riskTolerance
  | investmentAmount
  | tickerSymbol
deriving DecidableEq, Repr

/-- HTTP status of a validation rejection: every early return of the
route's validation block uses status 400. -/
def statusOf : ValidationError → Nat := fun _ => 400

/-- The ticker guards of the optimize route, in source order: tickers
present and non-empty, at least 2, at most 20. -/
def checkTickers : Option (List String) → Except ValidationError (List String)
  | none => .error .tickersRequired
  | some ts =>
    if ts.length = 0 then .error .tickersRequired
    else if ts.length < 2 then .error .minTickers
    else if 20 < ts.length then .error .maxTickers
    else .ok ts

/-- The date guards of the optimize route, in source order: both dates
present, `YYYY-MM-DD` format, start before end, end not in the future,
analysis period at least 30 days. -/
def checkDates (sd ed : Option String) (now : Int) : Except ValidationError Unit :=
  if strFalsy sd || strFalsy ed then .error .datesRequired
  else if !(validDateFormat (sd.getD "") && validDateFormat (ed.getD "")) then
    .error .dateFormat
  else if jsGe (parseDate (sd.getD "")) (parseDate (ed.getD "")) then .error .dateOrder
  else if jsGt (parseDate (ed.getD "")) (some now) then .error .dateFuture
  else if jsDaysLt30 (parseDate (sd.getD "")) (parseDate (ed.getD "")) then
    .error .shortPeriod
  else .ok ()

/-- The risk-tolerance guard of the optimize route. -/
def checkRisk (rt : Option ℚ) : Except ValidationError Unit :=
  if riskInvalid rt then .error .riskTolerance else .ok ()

/-- The investment-amount guard of the optimize route. -/
def checkAmount (a : Option ℚ) : Except ValidationError Unit :=
  if amountInvalid a then .error .investmentAmount else .ok ()

/-- The ticker-symbol guard of the optimize route: every ticker matches
`^[A-Z]{1,5}$` after uppercasing. -/
def checkSymbols (ts : List String) : Except ValidationError Unit :=
  if !(ts.all validTicker) then .error .tickerSymbol else .ok ()

/-- The validation block of POST in
`frontend/src/app/api/optimize/route.ts` (identical in
`src/unnamed/part_004`): the guards in source order, ending with the
`requestData` object forwarded to the backend.  `now` models the route's
`new Date()`. -/
def POSTvalidate (b : PortfolioRequest) (now : Int) :
    Except ValidationError ForwardedRequest :=
  (checkTickers b.tickers).bind fun ts =>
  (checkDates b.start_date b.end_date now).bind fun _ =>
  (checkRisk b.risk_tolerance).bind fun _ =>
  (checkAmount b.investment_amount).bind fun _ =>
  (checkSymbols ts).bind fun _ =>
  .ok
    { tickers := ts.map upper
      start_date := b.start_date.getD ""
      end_date := b.end_date.getD ""
      risk_tolerance := b.risk_tolerance.getD 0
      investment_amount := jsOrQ b.investment_amount 100000 }

/-- The request body of POST /api/optimize-existing
(`frontend/src/app/api/optimize-existing/route.ts`); an asset is a
ticker/shares pair like a `Holding`. -/
structure ExistingPortfolioRequest where
  assets : Option (List Holding)
  start_date : Option String
  end_date : Option String
  risk_tolerance : Option ℚ
deriving DecidableEq, Repr

/-- The validation rejections of the optimize-existing route. -/
inductive ExistingValidationError
  | assetsMin
  | datesRequired
deriving DecidableEq, Repr

/-- The validation block of POST in
`frontend/src/app/api/optimize-existing/route.ts`: at least 2 assets and
both dates required; the validated body is forwarded unchanged. -/
def existingValidate (b : ExistingPortfolioRequest) :
    Except ExistingValidationError ExistingPortfolioRequest :=
  match b.assets with
  | none => .error .assetsMin
  | some as =>
    if as.length < 2 then .error .assetsMin
    else if strFalsy b.start_date || strFalsy b.end_date then .error .datesRequired
    else .ok b

theorem except_bind_ok {α β ε : Type} (a : α) (f : α → Except ε β) :
    Except.bind (.ok a) f = f a := rfl

theorem checkTickers_ok {o : Option (List String)} {ts : List String}
    (h : checkTickers o = .ok ts) :
    o = some ts ∧ 2 ≤ ts.length ∧ ts.length ≤ 20 := by
  cases o with
  | none => cases h
  | some ts0 =>
    rw [checkTickers] at h
    split_ifs at h with h1 h2 h3
    cases h
    exact ⟨rfl, by omega, by omega⟩

theorem checkRisk_ok {rt : Option ℚ} (h : checkRisk rt = .ok ()) :
    riskInvalid rt = false := by
  rw [checkRisk] at h
  split_ifs at h with hc
  simpa using hc

theorem checkAmount_ok {a : Option ℚ} (h : checkAmount a = .ok ()) :
    amountInvalid a = false := by
  rw [checkAmount] at h
  split_ifs at h with hc
  simpa using hc

/-- Inversion of a successful validation: the conditions that must have
held, and the shape of the forwarded request. -/
theorem POSTvalidate_ok {b : PortfolioRequest} {now : Int}
    {fwd : ForwardedRequest} (h : POSTvalidate b now = .ok fwd) :
    ∃ ts, b.tickers = some ts ∧ 2 ≤ ts.length ∧
      riskInvalid b.risk_tolerance = false ∧
      amountInvalid b.investment_amount = false ∧
      fwd.tickers = ts.map upper ∧
      fwd.risk_tolerance = b.risk_tolerance.getD 0 ∧
      fwd.investment_amount = jsOrQ b.investment_amount 100000 := by
  rw [POSTvalidate] at h
  cases h1 : checkTickers b.tickers with
  | error e => rw [h1] at h; cases h
  | ok ts =>
    rw [h1, except_bind_ok] at h
    cases h2 : checkDates b.start_date b.end_date now with
    | error e => rw [h2] at h; cases h
    | ok u =>
      cases u
      rw [h2, except_bind_ok] at h
      cases h3 : checkRisk b.risk_tolerance with
      | error e => rw [h3] at h; cases h
      | ok u =>
        cases u
        rw [h3, except_bind_ok] at h
        cases h4 : checkAmount b.investment_amount with
        | error e => rw [h4] at h; cases h
        | ok u =>
          cases u
          rw [h4, except_bind_ok] at h
          cases h5 : checkSymbols ts with
          | error e => rw [h5] at h; cases h
          | ok u =>
            cases u
            rw [h5, except_bind_ok] at h
            cases h
            obtain ⟨hb, hlen, -⟩ := checkTickers_ok h1
            exact ⟨ts, hb, hlen, checkRisk_ok h3, checkAmount_ok h4,
              rfl, rfl, rfl⟩

/-- C6: a missing, negative, or above-1 risk tolerance is rejected with a
validation error before the request is forwarded to the backend, and every
risk tolerance in [0,1] passes the risk-tolerance guard. -/
theorem c6_risk_tolerance_validation (b : PortfolioRequest) (now : Int) :
    ((b.risk_tolerance = none ∨
        ∃ r, b.risk_tolerance = some r ∧ (r < 0 ∨ 1 < r)) →
      ∃ e, POSTvalidate b now = .error e) ∧
    (∀ r, b.risk_tolerance = some r → 0 ≤ r → r ≤ 1 →
      riskInvalid b.risk_tolerance = false) := by
  constructor
  · intro hbad
    cases hres : POSTvalidate b now with
    | error e => exact ⟨e, rfl⟩
    | ok fwd =>
      obtain ⟨ts, -, -, hrisk, -, -, -, -⟩ := POSTvalidate_ok hres
      exfalso
      rcases hbad with hnone | ⟨r, hr, hout⟩
      · rw [hnone] at hrisk
        simp [riskInvalid] at hrisk
      · rw [hr] at hrisk
        simp [riskInvalid] at hrisk
        rcases hout with hlt | hgt
        · linarith [hrisk.1]
        · linarith [hrisk.2]
  · intro r hr h0 h1
    simp [riskInvalid, hr, not_lt.mpr h0, not_lt.mpr h1]

/-- Witness for C6: risk tolerance 2 is rejected. -/
theorem c6_risk_tolerance_validation_witness :
    ∃ e, POSTvalidate
      ⟨some ["AAPL", "MSFT"], some "2023-01-01", some "2023-03-01", some 2, some 5000⟩
      1800000000000 = .error e :=
  (c6_risk_tolerance_validation _ _).1 (Or.inr ⟨2, rfl, Or.inr (by norm_num)⟩)

/-- C7: a request with fewer than 2 tickers (optimize route) or fewer
than 2 assets (optimize-existing route) is rejected by validation: the
route returns an error and nothing is forwarded to the optimizer. -/
theorem c7_min_assets_validation :
    (∀ (b : PortfolioRequest) (now : Int),
      (b.tickers = none → ∃ e, POSTvalidate b now = .error e) ∧
      (∀ ts, b.tickers = some ts → ts.length < 2 →
        ∃ e, POSTvalidate b now = .error e)) ∧
    (∀ eb : ExistingPortfolioRequest,
      (eb.assets = none → ∃ e, existingValidate eb = .error e) ∧
      (∀ as, eb.assets = some as → as.length < 2 →
        ∃ e, existingValidate eb = .error e)) := by
  constructor
  · intro b now
    constructor
    · intro hnone
      cases hres : POSTvalidate b now with
      | error e => exact ⟨e, rfl⟩
      | ok fwd =>
        obtain ⟨ts, hts, -, -, -, -, -, -⟩ := POSTvalidate_ok hres
        rw [hnone] at hts
        cases hts
    · intro ts hts hlen
      cases hres : POSTvalidate b now with
      | error e => exact ⟨e, rfl⟩
      | ok fwd =>
        obtain ⟨ts2, hts2, hlen2, -, -, -, -, -⟩ := POSTvalidate_ok hres
        rw [hts] at hts2
        obtain rfl := Option.some.inj hts2
        omega
  · intro eb
    constructor
    · intro hnone
      exact ⟨.assetsMin, by simp [existingValidate, hnone]⟩
    · intro as has hlen
      exact ⟨.assetsMin, by simp [existingValidate, has, hlen]⟩

/-- Witness for C7: one ticker and one asset are both rejected. -/
theorem c7_min_assets_validation_witness :
    (∃ e, POSTvalidate
      ⟨some ["AAPL"], some "2023-01-01", some "2023-03-01", some (1/2), none⟩
      1800000000000 = .error e) ∧
    (∃ e, existingValidate
      ⟨some [⟨"AAPL", 10⟩], some "2023-01-01", some "2023-03-01", some (1/2)⟩
      = .error e) :=
  ⟨(c7_min_assets_validation.1 _ _).2 ["AAPL"] rfl (by decide),
   (c7_min_assets_validation.2 _).2 [⟨"AAPL", 10⟩] rfl (by decide)⟩

/-- C8: an optimize request with a defined investment amount that is ≤ 0
or > 10,000,000 is rejected with a 400 validation error and never
forwarded; defined amounts in (0, 10,000,000] pass the amount guard. -/
theorem c8_investment_amount_validation (b : PortfolioRequest) (now : Int)
    (a : ℚ) (ha : b.investment_amount = some a) :
    ((a ≤ 0 ∨ 10000000 < a) →
      ∃ e, POSTvalidate b now = .error e ∧ statusOf e = 400) ∧
    (0 < a → a ≤ 10000000 → amountInvalid b.investment_amount = false) := by
  constructor
  · intro hbad
    cases hres : POSTvalidate b now with
    | error e => exact ⟨e, rfl, rfl⟩
    | ok fwd =>
      obtain ⟨ts, -, -, -, hamt, -, -, -⟩ := POSTvalidate_ok hres
      rw [ha] at hamt
      simp [amountInvalid] at hamt
      rcases hbad with hle | hgt
      · linarith [hamt.1]
      · linarith [hamt.2]
  · intro h0 h1
    simp [amountInvalid, ha, not_le.mpr h0, not_lt.mpr h1]

/-- Witness for C8: investment amount 20,000,000 is rejected with a 400. -/
theorem c8_investment_amount_validation_witness :
    ∃ e, POSTvalidate
      ⟨some ["AAPL", "MSFT"], some "2023-01-01", some "2023-03-01",
        some (1/2), some 20000000⟩ 1800000000000 = .error e ∧
      statusOf e = 400 :=
  (c8_investment_amount_validation _ _ 20000000 rfl).1 (Or.inr (by norm_num))

/-- C9: every request forwarded to the backend carries the caller's
investment amount when one was supplied, the default 100000 when the field
was omitted, and the caller's tickers converted to uppercase. -/
theorem c9_forwarded_request (b : PortfolioRequest) (now : Int)
    (fwd : ForwardedRequest) (h : POSTvalidate b now = .ok fwd) :
    (∀ a, b.investment_amount = some a → fwd.investment_amount = a) ∧
    (b.investment_amount = none → fwd.investment_amount = 100000) ∧
    (∀ ts, b.tickers = some ts → fwd.tickers = ts.map upper) := by
  obtain ⟨ts0, hts0, -, -, hamt, htick, -, hinv⟩ := POSTvalidate_ok h
  refine ⟨fun a ha => ?_, fun hnone => ?_, fun ts hts => ?_⟩
  · rw [ha] at hamt
    simp [amountInvalid] at hamt
    have hne : a ≠ 0 := ne_of_gt hamt.1
    rw [hinv, ha]
    simp [jsOrQ, hne]
  · rw [hinv, hnone]
    rfl
  · rw [hts] at hts0
    obtain rfl := Option.some.inj hts0
    exact htick

/-- Witness for C9: a concrete valid request is forwarded with its own
amount and uppercased tickers. -/
theorem c9_forwarded_request_witness :
    POSTvalidate
      ⟨some ["aapl", "msft"], some "2023-01-01", some "2023-03-01",
        some 1, some 5000⟩ 1800000000000 =
      .ok ⟨["AAPL", "MSFT"], "2023-01-01", "2023-03-01", 1, 5000⟩ ∧
    (⟨["AAPL", "MSFT"], "2023-01-01", "2023-03-01", 1, 5000⟩ :
      ForwardedRequest).investment_amount = 5000 ∧
    (⟨["AAPL", "MSFT"], "2023-01-01", "2023-03-01", 1, 5000⟩ :
      ForwardedRequest).tickers = ["aapl", "msft"].map upper := by
  have hsd : parseDate "2023-01-01" = some 1672531200000 := by decide
  have hed : parseDate "2023-03-01" = some 1677628800000 := by decide
  have hdays : jsDaysLt30 (some (1672531200000 : Int)) (some (1677628800000 : Int))
      = false := by
    simp only [jsDaysLt30]
    apply decide_eq_false
    norm_num
  have hd : checkDates (some "2023-01-01") (some "2023-03-01")
      (1800000000000 : Int) = Except.ok () := by
    simp only [checkDates, Option.getD_some, hsd, hed, hdays]
    rfl
  have h : POSTvalidate
      ⟨some ["aapl", "msft"], some "2023-01-01", some "2023-03-01",
        some 1, some 5000⟩ 1800000000000 =
      .ok ⟨["AAPL", "MSFT"], "2023-01-01", "2023-03-01", 1, 5000⟩ := by
    simp only [POSTvalidate, hd]
    rfl
  exact ⟨h, (c9_forwarded_request _ _ _ h).1 5000 rfl,
    (c9_forwarded_request _ _ _ h).2.2 ["aapl", "msft"] rfl⟩

/-- The old flat backend response format (`OldOptimizationResponse` in
`frontend/src/app/api/optimize/route.ts`); optional fields may be absent. -/
structure OldResponse where
  tickers : Option (List String)
  classical_weights : List ℚ
  quantum_weights : List ℚ
  classical_return : Option ℚ
  quantum_return : Option ℚ
  classical_risk : Option ℚ
  quantum_risk : Option ℚ
  classical_sharpe : Option ℚ
  quantum_sharpe : Option ℚ
  improvement_percent : Option ℚ
deriving DecidableEq, Repr

/-- One portfolio object of the transformed (rich) response of the
optimize route. -/
structure PortfolioOut where
  tickers : List String
  weights : List ℚ
  allocations : List ℚ
  expected_return : ℚ
  risk : ℚ
  sharpe_ratio : ℚ
  expected_annual_profit : ℚ
deriving DecidableEq, Repr

/-- The performance-comparison object of the transformed response. -/
structure PerformanceComparison where
  improvement_percent : ℚ
  additional_expected_profit : ℚ
  risk_difference : ℚ
deriving DecidableEq, Repr

/-- The transformed response the optimize route sends to its client when
the backend answered in the old flat format, including the legacy flat
fields the route re-attaches. -/
structure TransformedResponse where
  investment_amount : ℚ
  risk_tolerance : ℚ
  classical_portfolio : PortfolioOut
  quantum_portfolio : PortfolioOut
  performance_comparison : PerformanceComparison
  quantum_weights : List ℚ
  classical_weights : List ℚ
  quantum_return : ℚ
  classical_return : ℚ
  quantum_risk : ℚ
  classical_risk : ℚ
  quantum_sharpe : ℚ
  classical_sharpe : ℚ
  tickers : List String
  legacy_improvement_percent : ℚ
deriving DecidableEq, Repr

/-- The old-format branch of the optimize route's transformation layer
(`frontend/src/app/api/optimize/route.ts`, the branch taken when
`quantum_weights` and `classical_weights` are present and the nested
portfolio objects are not; same transform in `src/unnamed/part_004` and
`reactfrontend/src/api/optimize.js`). -/
def transformOld (old : OldResponse) (reqTickers : List String)
    (investment_amount risk_tolerance : ℚ) : TransformedResponse :=
  { investment_amount := investment_amount
    risk_tolerance := risk_tolerance
    classical_portfolio :=
      { tickers := old.tickers.getD reqTickers
        weights := old.classical_weights
        allocations := old.classical_weights.map (fun w => w * investment_amount)
        expected_return := jsOrQ old.classical_return 0
        risk := jsOrQ old.classical_risk 0
        sharpe_ratio := jsOrQ old.classical_sharpe 0
        expected_annual_profit := jsOrQ old.classical_return 0 * investment_amount }
    quantum_portfolio :=
      { tickers := old.tickers.getD reqTickers
        weights := old.quantum_weights
        allocations := old.quantum_weights.map (fun w => w * investment_amount)
        expected_return := jsOrQ old.quantum_return 0
        risk := jsOrQ old.quantum_risk 0
        sharpe_ratio := jsOrQ old.quantum_sharpe 0
        expected_annual_profit := jsOrQ old.quantum_return 0 * investment_amount }
    performance_comparison :=
      { improvement_percent := jsOrQ old.improvement_percent 0
        additional_expected_profit :=
          (jsOrQ old.quantum_return 0 - jsOrQ old.classical_return 0) * investment_amount
        risk_difference := jsOrQ old.quantum_risk 0 - jsOrQ old.classical_risk 0 }
    quantum_weights := old.quantum_weights
    classical_weights := old.classical_weights
    quantum_return := jsOrQ old.quantum_return 0
    classical_return := jsOrQ old.classical_return 0
    quantum_risk := jsOrQ old.quantum_risk 0
    classical_risk := jsOrQ old.classical_risk 0
    quantum_sharpe := jsOrQ old.quantum_sharpe 0
    classical_sharpe := jsOrQ old.classical_sharpe 0
    tickers := old.tickers.getD reqTickers
    legacy_improvement_percent := jsOrQ old.improvement_percent 0 }

/-- C10: for a backend response in the old flat format, every allocation
of the transformed response is the corresponding weight times the
investment amount, and each portfolio's expected annual profit equals its
expected return times the investment amount (missing returns treated
as 0). -/
theorem c10_old_format_transform (old : OldResponse) (reqTickers : List String)
    (amt rt : ℚ) :
    (∀ i, ((transformOld old reqTickers amt rt).classical_portfolio.allocations).get? i
        = (old.classical_weights.get? i).map (fun w => w * amt)) ∧
    (∀ i, ((transformOld old reqTickers amt rt).quantum_portfolio.allocations).get? i
        = (old.quantum_weights.get? i).map (fun w => w * amt)) ∧
    (transformOld old reqTickers amt rt).classical_portfolio.expected_annual_profit
      = (transformOld old reqTickers amt rt).classical_portfolio.expected_return * amt ∧
    (transformOld old reqTickers amt rt).quantum_portfolio.expected_annual_profit
      = (transformOld old reqTickers amt rt).quantum_portfolio.expected_return * amt := by
  refine ⟨fun i => ?_, fun i => ?_, rfl, rfl⟩
  · show (old.classical_weights.map (fun w => w * amt)).get? i = _
    rw [List.get?_map]
  · show (old.quantum_weights.map (fun w => w * amt)).get? i = _
    rw [List.get?_map]

end QPO
